import Mathlib

/-!
A shallow embedding of the YARA-X scan runtime (`yara-x/src/scanner/mod.rs`)
together with proofs about it.

Modelling conventions:
* machine integers are `Nat` with an explicit `% 2 ^ 32` where u32 wrap-around
  matters (Rust integer division on unsigned types is floor division);
* raw pointers are `Option` values, `none` standing for the null pointer;
* the `FxHashMap`s of the scan context are association lists whose update
  functions modify the first entry carrying the given key, mirroring a map
  that holds at most one entry per key;
* the root structure (`Struct`) is a finite-support function from field names
  to typed values;
* fallible Rust code becomes `Except`/`Option`; a panic (`unwrap` on a missing
  module, `todo!()`) is `none`;
* the compiled WASM rule program, the built-in module registry and the types
  defined outside `scanner/mod.rs` (`TypeValue`, `Match`, `ScanContext`
  field layout) are not part of the sources; where needed they are modelled
  from the spec, as noted on each definition.
-/

namespace YaraX

/-! ## Bitmap base offset (`Scanner::new`, mod.rs lines 107-134) -/

/-- Base offset of the matching-patterns bitmap exactly as `Scanner::new`
computes it: `wasm::MATCHING_RULES_BITMAP_BASE as u32 + num_rules / 8 + 1`,
in u32 arithmetic (floor division, wrap-around modulo `2 ^ 32`).  `bRules`
stands for the compile-time constant `MATCHING_RULES_BITMAP_BASE`, which is
defined outside the scanner sources. -/
def matchingPatternsBitmapBase (bRules numRules : Nat) : Nat :=
  (bRules + numRules / 8 + 1) % 2 ^ 32

/-- The formula stated by the spec for the same offset:
`B_PATTERNS = B_RULES + ceil(num_rules/8) + 1`.  Declared only to be compared
with `matchingPatternsBitmapBase`, which is translated from the source. -/
def specCeilPatternsBitmapBase (bRules numRules : Nat) : Nat :=
  bRules + (numRules + 7) / 8 + 1

/-- Interpretation of a u32 bit pattern as a signed 32-bit integer, modelling
the Rust cast `as i32`. -/
def toI32 (u : Nat) : Int :=
  if u % 2 ^ 32 < 2 ^ 31 then ((u % 2 ^ 32 : Nat) : Int)
  else ((u % 2 ^ 32 : Nat) : Int) - 2 ^ 32

/-- A WASM i32 global as created by `Scanner::new` via `Global::new`:
a mutability flag and the i32 payload. -/
structure WasmGlobalI32 where
  isConst : Bool
  value : Int
deriving DecidableEq

/-- The global `matching_patterns_bitmap_base` registered by `Scanner::new`
(mod.rs lines 122-127): an immutable (`Mutability::Const`) i32 global holding
the computed base offset cast to i32. -/
def mkMatchingPatternsBitmapBaseGlobal (bRules numRules : Nat) : WasmGlobalI32 :=
  { isConst := true, value := toI32 (matchingPatternsBitmapBase bRules numRules) }

/-! ## Typed values and the root structure

Modelled from the spec: `TypeValue` and `Struct` live in `crate::types`,
outside the scanner sources.  A typed value is a runtime type tag plus a
payload; `eq_type` compares the type tags. -/

/-- Modelled from the spec: the runtime type of a typed value (the `ty()` of
`crate::types::TypeValue`, which is not among the sources). -/
inductive Ty where
  | integer
  | float
  | boolean
  | stringTy
  | structTy
  | regexp
deriving DecidableEq

/-- Display name of a runtime type, used in type-mismatch errors
(`ty().to_string()` in `Scanner::set_global`). -/
def Ty.typeName : Ty → String
  | .integer => "integer"
  | .float => "float"
  | .boolean => "boolean"
  | .stringTy => "string"
  | .structTy => "struct"
  | .regexp => "regexp"

/-- Modelled from the spec: a typed value (`crate::types::TypeValue`), a type
tag plus a payload. -/
structure TypeValue where
  ty : Ty
  payload : Int
deriving DecidableEq

/-- `TypeValue::eq_type`: two typed values agree in type exactly when their
type tags coincide. -/
def eqType (a b : TypeValue) : Bool :=
  decide (a.ty = b.ty)

/-- The root structure (`Struct`), modelled from the spec as a function from
field names to typed values; `none` means the field is absent. -/
abbrev RootStruct := String → Option TypeValue

/-- `Struct::add_field`: insert or overwrite the field `name` with value `v`. -/
def addField (root : RootStruct) (name : String) (v : TypeValue) : RootStruct :=
  fun n => if n = name then some v else root n

/-- Error type of `Scanner::set_global` (`crate::variables::VariableError`,
modelled from the spec): an undeclared variable, or a type mismatch reporting
the expected and the actual type. -/
inductive VariableError where
  | undeclared (ident : String)
  | invalidType (ident : String) (expectedType : String) (actualType : String)
deriving DecidableEq

/-- `Scanner::set_global` (mod.rs lines 337-362).  Looks `ident` up in the
root structure; absent fields give `VariableError::Undeclared`; a present
field whose type differs from the new value's type gives
`VariableError::InvalidType` (expected type first, actual type second) and
leaves the structure untouched; otherwise the field is overwritten.  Returns
the error, if any, together with the resulting root structure. -/
def setGlobal (root : RootStruct) (ident : String) (v : TypeValue) :
    Option VariableError × RootStruct :=
  match root ident with
  | some field =>
    if eqType v field then (none, addField root ident v)
    else (some (.invalidType ident field.ty.typeName v.ty.typeName), root)
  | none => (some (.undeclared ident), root)

/-! ## Matches, modules and the scan context -/

/-- Modelled from the spec: a recorded pattern match (`scanner::matches`,
not among the sources): offset, length, optional xor key. -/
structure Match where
  offset : Nat
  length : Nat
  xorKey : Option Nat
deriving DecidableEq

/-- Modelled from the spec: a protobuf message returned by a module's main
function; it carries its full type name and an opaque payload. -/
structure ProtoMsg where
  fullName : String
  payload : Int

/-- Modelled from the spec: an entry of the built-in module registry
(`modules::BUILTIN_MODULES`): an optional main function (a function of the
scanned data) and the declared root message type name. -/
structure ModuleDef where
  mainFn : Option (List Nat → ProtoMsg)
  rootTypeName : String

/-- Lookup of a module name in the registry
(`modules::BUILTIN_MODULES.get(module_name)`). -/
def lookupMod (registry : List (String × ModuleDef)) (name : String) : Option ModuleDef :=
  ((registry.find? (fun e => decide (e.1 = name))).map Prod.snd)

/-- `Struct::from_proto_msg` wrapped into a typed value
(`TypeValue::Struct(Rc::new(module_struct))`), modelled from the spec. -/
def structOfMsg (m : ProtoMsg) : TypeValue :=
  { ty := Ty.structTy, payload := m.payload }

/-- The module-outputs table of the scan context, modelled from the spec as a
function from fully-qualified message type names to retained messages. -/
abbrev ModuleOutputs := String → Option ProtoMsg

/-- `ctx.module_outputs.insert(full_name, module_output)`: store the message
under its fully-qualified type name, replacing any previous value. -/
def insertOutput (outs : ModuleOutputs) (m : ProtoMsg) : ModuleOutputs :=
  fun n => if n = m.fullName then some m else outs n

/-- The scan context (`ScanContext`, defined in `scanner/context.rs`, which is
not among the sources; field layout modelled from the spec and from the field
accesses in `scanner/mod.rs`).  `scannedData` is `none` when the pointer is
null; `mem` is the byte content of the WASM linear memory. -/
structure ScanContext where
  scannedData : Option (List Nat)
  scannedDataLen : Nat
  currentStruct : Option Nat
  rulesMatching : List Nat
  globalRulesMatching : List (Nat × List Nat)
  patternMatches : List (Nat × List Match)
  unconfirmedMatches : List (Nat × List Match)
  stringPoolSize : Nat
  rootStruct : RootStruct
  moduleOutputs : ModuleOutputs
  mem : Nat → Nat
  filesize : Nat

/-! ## Association-list operations shared by the match tables -/

/-- Clear every value of an association table while keeping its keys, the way
`matches.clear()` inside `for (_, matches) in ...iter_mut()` empties each
vector but keeps the hash-map entries. -/
def clearVals {α : Type} (m : List (Nat × List α)) : List (Nat × List α) :=
  m.map (fun e => (e.1, []))

/-- Append values `vs` to the entry of key `k`, creating the entry at the end
if the key is absent (the `entry(k).or_default().append(...)` idiom of the
host functions that fill the match tables, modelled from the spec). -/
def appendEntry {α : Type} : List (Nat × List α) → Nat → List α → List (Nat × List α)
  | [], k, vs => [(k, vs)]
  | e :: rest, k, vs =>
    if e.1 = k then (e.1, e.2 ++ vs) :: rest
    else e :: appendEntry rest k vs

/-- Fold a batch of keyed value lists into an association table with
`appendEntry`. -/
def appendAll {α : Type} (m : List (Nat × List α)) (xs : List (Nat × List α)) :
    List (Nat × List α) :=
  xs.foldl (fun acc e => appendEntry acc e.1 e.2) m

/-- Value stored under key `k`, defaulting to the empty list — the view the
`Matches` cursor exposes (`pattern_matches.get(&pattern_id)`, yielding nothing
when the entry is absent). -/
def lookupD {α : Type} : List (Nat × List α) → Nat → List α
  | [], _ => []
  | e :: rest, k => if e.1 = k then e.2 else lookupD rest k

/-- Concatenation of every value list carrying key `k` in a batch. -/
def gatherKey {α : Type} : List (Nat × List α) → Nat → List α
  | [], _ => []
  | e :: rest, k => (if k = e.1 then e.2 else []) ++ gatherKey rest k

/-- Concatenation of all values of an association table, in entry order —
the order `for rules in ctx.global_rules_matching.values_mut()` drains them. -/
def joinVals {α : Type} (m : List (Nat × List α)) : List α :=
  (m.map Prod.snd).flatten

/-! ## Bitmaps in linear memory -/

/-- Bit `bit` of byte `idx` of linear memory (bit order inside a byte is
least-significant-first, `Lsb0`). -/
def byteBit (mem : Nat → Nat) (idx bit : Nat) : Bool :=
  Nat.testBit (mem idx) bit

/-- Bit `r` of the matching-rules bitmap that starts at byte offset `base`
(`MATCHING_RULES_BITMAP_BASE`). -/
def ruleBit (base : Nat) (mem : Nat → Nat) (r : Nat) : Bool :=
  byteBit mem (base + r / 8) (r % 8)

/-- Bit `p` of the matching-patterns bitmap, which starts right after the
matching-rules bitmap, at byte offset `base + numRules / 8 + 1`. -/
def patBit (base numRules : Nat) (mem : Nat → Nat) (p : Nat) : Bool :=
  byteBit mem (base + numRules / 8 + 1 + p / 8) (p % 8)

/-- Overwrite the bytes of `[lo, hi)` with zero (the `bitmap.fill(false)` of
`Scanner::clear_matches`). -/
def zeroRange (mem : Nat → Nat) (lo hi : Nat) : Nat → Nat :=
  fun i => if lo ≤ i ∧ i < hi then 0 else mem i

/-! ## `Scanner::clear_matches` (mod.rs lines 365-412) -/

/-- The branch condition of `Scanner::clear_matches`:
`!ctx.pattern_matches.is_empty() || !ctx.rules_matching.is_empty()`.
When it is false the whole clearing block — including the bitmap zeroing —
is skipped. -/
def clearPerformsZeroing (ctx : ScanContext) : Bool :=
  !ctx.patternMatches.isEmpty || !ctx.rulesMatching.isEmpty

/-- `Scanner::clear_matches`: always clear the unconfirmed-match vectors;
then, only if some pattern-match entry exists or some rule matched, clear the
per-pattern match vectors (keeping the keys), clear `rules_matching` and zero
the `(num_rules/8 + 1) + (num_patterns/8 + 1)` bytes that hold both bitmaps,
starting at `base`. -/
def clearMatches (numRules numPatterns base : Nat) (ctx : ScanContext) : ScanContext :=
  let c := { ctx with unconfirmedMatches := clearVals ctx.unconfirmedMatches }
  if clearPerformsZeroing c then
    { c with
      patternMatches := clearVals c.patternMatches
      rulesMatching := []
      mem := zeroRange c.mem base (base + (numRules / 8 + 1) + (numPatterns / 8 + 1)) }
  else c

/-- The bitmap/list agreement invariant the scan runtime maintains (spec §3,
invariants 4 and 5, restricted to the directions `clear_matches` relies on):
a set bit in the matching-rules bitmap has its rule recorded in
`rules_matching`, and a set bit in the matching-patterns bitmap has a
non-empty match list recorded for its pattern. -/
def wfBitmaps (numRules numPatterns base : Nat) (ctx : ScanContext) : Prop :=
  (∀ r, r < numRules → ruleBit base ctx.mem r = true → r ∈ ctx.rulesMatching) ∧
  (∀ p, p < numPatterns → patBit base numRules ctx.mem p = true →
    lookupD ctx.patternMatches p ≠ [])

/-! ## The scan driver (`Scanner::scan`, mod.rs lines 210-327) -/

/-- Setting `filesize` and storing the data pointer and length into the
context (mod.rs lines 215-222). -/
def bindInputs (ctx : ScanContext) (data : List Nat) : ScanContext :=
  { ctx with
    filesize := data.length
    scannedData := some data
    scannedDataLen := data.length }

/-- String-pool recycling (mod.rs lines 228-230): if the pool grew beyond
1,000,000 bytes it is replaced by a fresh empty pool. -/
def recyclePool (ctx : ScanContext) : ScanContext :=
  { ctx with
    stringPoolSize := if ctx.stringPoolSize > 1000000 then 0 else ctx.stringPoolSize }

/-- The module driver (mod.rs lines 232-302).  For each imported module name,
in order: look it up in the registry — `.unwrap()` panics (`none`) if absent;
if the module has no main function the code hits `todo!()` and panics
(`none`); otherwise run the main function on the scanned data, store the
output message under its full type name, and add the converted structure to
the root structure under the module's name. -/
def moduleDriver (registry : List (String × ModuleDef)) (data : List Nat) :
    List String → RootStruct → ModuleOutputs → Option (RootStruct × ModuleOutputs)
  | [], root, outs => some (root, outs)
  | name :: rest, root, outs =>
    match lookupMod registry name with
    | none => none
    | some md =>
      match md.mainFn with
      | none => none
      | some f =>
        let msg := f data
        moduleDriver registry data rest
          (addField root name (structOfMsg msg)) (insertOutput outs msg)

/-- The sequence of root-structure writes the module driver performs, one
`(module name, converted structure)` pair per import, `none` when some import
is unresolvable.  Depends only on the registry, the data and the import list. -/
def modWrites (registry : List (String × ModuleDef)) (data : List Nat) :
    List String → Option (List (String × TypeValue))
  | [] => some []
  | name :: rest =>
    match lookupMod registry name with
    | none => none
    | some md =>
      match md.mainFn with
      | none => none
      | some f =>
        (modWrites registry data rest).map
          (fun w => (name, structOfMsg (f data)) :: w)

/-- Apply a sequence of field writes to a root structure, in order. -/
def applyFields : RootStruct → List (String × TypeValue) → RootStruct
  | root, [] => root
  | root, (n, v) :: rest => applyFields (addField root n v) rest

/-- The last value written to field `m` by a write sequence, if any. -/
def lastWrite : List (String × TypeValue) → String → Option TypeValue
  | [], _ => none
  | (n, v) :: rest, m =>
    match lastWrite rest m with
    | some w => some w
    | none => if m = n then some v else none

/-- Modelled from the spec: the observable effect of the compiled rule
program's exported `main` function on the scan context, produced by the
host functions it calls: rule ids pushed into `rules_matching`, rule ids
grouped into `global_rules_matching`, matches appended to `pattern_matches`,
a transformation of linear memory (the bitmap writes), the final transient
`current_struct`, and string-pool growth. -/
structure VMOutput where
  regular : List Nat
  globalGroups : List (Nat × List Nat)
  patMatches : List (Nat × List Match)
  memF : (Nat → Nat) → (Nat → Nat)
  currStruct : Option Nat
  poolGrowth : Nat

/-- Apply the effects of the rule program's `main` to the context. -/
def applyVM (ctx : ScanContext) (out : VMOutput) : ScanContext :=
  { ctx with
    rulesMatching := ctx.rulesMatching ++ out.regular
    globalRulesMatching := appendAll ctx.globalRulesMatching out.globalGroups
    patternMatches := appendAll ctx.patternMatches out.patMatches
    mem := out.memF ctx.mem
    currentStruct := out.currStruct
    stringPoolSize := ctx.stringPoolSize + out.poolGrowth }

/-- Detaching the inputs at the end of `scan` (mod.rs lines 311-318): the
scanned-data pointer back to null, its length to 0, `current_struct` cleared. -/
def detachInputs (ctx : ScanContext) : ScanContext :=
  { ctx with scannedData := none, scannedDataLen := 0, currentStruct := none }

/-- `Scanner::scan` up to and including the input detachment: reset the match
state, bind the inputs, recycle the string pool if needed, run the module
driver (propagating its panics as `none`), invoke the rule program, and detach
the inputs.  `vmMain` is the spec-modelled rule program: a pure function of
the scanned data and the root structure. -/
def scanCore (vmMain : List Nat → RootStruct → VMOutput)
    (registry : List (String × ModuleDef)) (imports : List String)
    (numRules numPatterns base : Nat) (ctx : ScanContext) (data : List Nat) :
    Option ScanContext :=
  let c := recyclePool (bindInputs (clearMatches numRules numPatterns base ctx) data)
  match moduleDriver registry data imports c.rootStruct c.moduleOutputs with
  | none => none
  | some (root, outs) =>
    let c2 := { c with rootStruct := root, moduleOutputs := outs }
    some (detachInputs (applyVM c2 (vmMain data c2.rootStruct)))

/-- The post-processing step of `Scanner::scan` (mod.rs lines 320-326): every
vector of `global_rules_matching` is appended to `rules_matching` and left
empty (the map keeps its entries). -/
def postProcess (ctx : ScanContext) : ScanContext :=
  { ctx with
    rulesMatching := ctx.rulesMatching ++ joinVals ctx.globalRulesMatching
    globalRulesMatching := clearVals ctx.globalRulesMatching }

/-- `Scanner::scan`: the core followed by the global-rule drain.  `none`
models a panic inside the module driver. -/
def scan (vmMain : List Nat → RootStruct → VMOutput)
    (registry : List (String × ModuleDef)) (imports : List String)
    (numRules numPatterns base : Nat) (ctx : ScanContext) (data : List Nat) :
    Option ScanContext :=
  (scanCore vmMain registry imports numRules numPatterns base ctx data).map postProcess

/-- The per-pattern match list a result cursor observes for pattern `p`. -/
def patternMatchList (ctx : ScanContext) (p : Nat) : List Match :=
  lookupD ctx.patternMatches p

/-! ## `Scanner::scan_file` (mod.rs lines 172-207) -/

/-- The interactions `scan_file` has with the operating system for one path,
modelled as their outcomes: the result of `File::open`, of `metadata()` (its
`len`, or `none` when the metadata call fails), of `read_to_end`, of
`MmapFile::open`, and the file's byte content. -/
structure FileInput where
  openErr : Option Nat
  metaSize : Option Nat
  readErr : Option Nat
  mapErr : Option Nat
  content : List Nat

/-- `ScanError` (mod.rs lines 41-47): an open error or a map error, each
carrying the path and the underlying OS error. -/
inductive ScanError where
  | openError (path : String) (source : Nat)
  | mapError (path : String) (source : Nat)
deriving DecidableEq

/-- The buffer `scan_file` hands to `scan`: its bytes, the capacity freshly
reserved for it (`Vec::with_capacity(size)`; `none` on the memory-map path),
and whether it is a memory-mapped region. -/
structure ScannedBuffer where
  data : List Nat
  reservedCapacity : Option Nat
  memoryMapped : Bool
deriving DecidableEq

/-- The read/mmap threshold of `scan_file`: 500,000,000 bytes. -/
def fileSizeThreshold : Nat := 500000000

/-- `Scanner::scan_file`: open the file (failure → `OpenError` with the path);
take the metadata size, defaulting to 0 when metadata fails; below the
threshold read the whole file into a buffer of capacity exactly `size`
(read failure → `OpenError` with the path); otherwise memory-map the file
read-only (failure → `MapError` with the path). -/
def scanFile (path : String) (f : FileInput) : Except ScanError ScannedBuffer :=
  match f.openErr with
  | some e => .error (.openError path e)
  | none =>
    let size := f.metaSize.getD 0
    if size < fileSizeThreshold then
      match f.readErr with
      | some e => .error (.openError path e)
      | none => .ok { data := f.content, reservedCapacity := some size, memoryMapped := false }
    else
      match f.mapErr with
      | some e => .error (.mapError path e)
      | none => .ok { data := f.content, reservedCapacity := none, memoryMapped := true }

/-- `scan_file` composed with `scan` (`Ok(self.scan(data))`). -/
def scanFileRun (vmMain : List Nat → RootStruct → VMOutput)
    (registry : List (String × ModuleDef)) (imports : List String)
    (numRules numPatterns base : Nat) (ctx : ScanContext)
    (path : String) (f : FileInput) : Except ScanError (Option ScanContext) :=
  (scanFile path f).map
    (fun b => scan vmMain registry imports numRules numPatterns base ctx b.data)

/-! ## The non-matching-rules cursor (`NonMatchingRules`, mod.rs lines 498-552) -/

/-- The zero bits of the matching-rules bitmap restricted to indices
`[0, numRules)` — what `iter_zeros()` on the `BitSlice` truncated to
`num_rules` bits visits, in increasing order. -/
def bitmapZeroIndices (mem : Nat → Nat) (base numRules : Nat) : List Nat :=
  (List.range numRules).filter (fun r => !ruleBit base mem r)

/-- State of the `NonMatchingRules` iterator: the zero-bit indices still to be
yielded and the reported length. -/
structure NonMatchingRulesIter where
  remaining : List Nat
  len : Nat
deriving DecidableEq

/-- `NonMatchingRules::new`: the iterator over the zero bits of the
matching-rules bitmap truncated to `num_rules` bits, with reported length
`num_rules - rules_matching.len()`. -/
def NonMatchingRulesIter.new (ctx : ScanContext) (numRules base : Nat) :
    NonMatchingRulesIter :=
  { remaining := bitmapZeroIndices ctx.mem base numRules
    len := numRules - ctx.rulesMatching.length }

/-- `NonMatchingRules::next`: decrement the reported length with
`saturating_sub(1)` (which happens even when the underlying iterator is
exhausted), then yield the next zero-bit index, if any. -/
def NonMatchingRulesIter.next (it : NonMatchingRulesIter) :
    Option Nat × NonMatchingRulesIter :=
  match it.remaining with
  | [] => (none, { remaining := [], len := it.len - 1 })
  | r :: rest => (some r, { remaining := rest, len := it.len - 1 })

/-- Run the iterator to exhaustion through `next`, collecting every yielded
rule index. -/
def NonMatchingRulesIter.drain (it : NonMatchingRulesIter) : List Nat :=
  match h : it.next with
  | (none, _) => []
  | (some r, it2) => r :: it2.drain
termination_by it.remaining.length
decreasing_by
  simp only [NonMatchingRulesIter.next] at h
  cases hr : it.remaining with
  | nil => rw [hr] at h; simp at h
  | cons a rest =>
    rw [hr] at h
    simp at h
    rw [← h.2]
    simp

/-- The iterator state after `k` calls to `next`. -/
def NonMatchingRulesIter.stepN (it : NonMatchingRulesIter) : Nat → NonMatchingRulesIter
  | 0 => it
  | k + 1 => (it.next).2.stepN k

/-! ## Concrete fixtures used in closed statements -/

/-- A trivial concrete rule-program model used in concrete runs: rule 0
matches, global rule 1 matches in group 0, pattern 0 matches once. -/
def vmFix : List Nat → RootStruct → VMOutput := fun _ _ =>
  { regular := [0]
    globalGroups := [(0, [1])]
    patMatches := [(0, [{ offset := 0, length := 3, xorKey := none }])]
    memF := id
    currStruct := none
    poolGrowth := 0 }

/-- A fresh scan context over an all-zero linear memory. -/
def ctxFix : ScanContext :=
  { scannedData := none, scannedDataLen := 0, currentStruct := none
    rulesMatching := [], globalRulesMatching := [], patternMatches := []
    unconfirmedMatches := [], stringPoolSize := 0
    rootStruct := fun _ => none, moduleOutputs := fun _ => none
    mem := fun _ => 0, filesize := 0 }

/-- A context whose pattern-match table holds one entry with an empty match
vector (the state left by a scan that found matches followed by one that
found none), zero bitmaps, no matching rules. -/
def ctxEmptyVec : ScanContext :=
  { ctxFix with patternMatches := [(0, [])] }

/-- A registry with one module named `m` with a main function. -/
def regFix : List (String × ModuleDef) :=
  [("m", { mainFn := some (fun _ => { fullName := "T", payload := 0 })
           rootTypeName := "T" })]

/-- A registry with one module named `m` that has no main function. -/
def regFixNoMain : List (String × ModuleDef) :=
  [("m", { mainFn := none, rootTypeName := "T" })]

/-- A root structure declaring one integer global `x`. -/
def rootFix : RootStruct :=
  fun n => if n = "x" then some { ty := Ty.integer, payload := 5 } else none

/-- A small file that opens and reads successfully. -/
def fileSmall : FileInput :=
  { openErr := none, metaSize := some 2, readErr := none, mapErr := none
    content := [1, 2] }

/-- A large file that opens and maps successfully. -/
def fileLarge : FileInput :=
  { openErr := none, metaSize := some 600000000, readErr := none, mapErr := none
    content := [] }

/-- A small file whose buffered read fails with OS error 7. -/
def fileReadErr : FileInput :=
  { openErr := none, metaSize := some 3, readErr := some 7, mapErr := none
    content := [] }

/-- A large file whose memory map fails with OS error 9. -/
def fileMapErr : FileInput :=
  { openErr := none, metaSize := some 600000000, readErr := none, mapErr := some 9
    content := [] }

/-! ## Association-table lemmas -/

/-- Looking a key up in a table whose values were all cleared yields the
empty list. -/
theorem lookupD_clearVals {α : Type} (m : List (Nat × List α)) (k : Nat) :
    lookupD (clearVals m) k = [] := by
  induction m with
  | nil => rfl
  | cons e rest ih =>
    simp only [clearVals, List.map_cons, lookupD]
    split
    · rfl
    · simpa [clearVals] using ih

/-- Joining the values of a cleared table yields the empty list. -/
theorem joinVals_clearVals {α : Type} (m : List (Nat × List α)) :
    joinVals (clearVals m) = ([] : List α) := by
  induction m with
  | nil => rfl
  | cons e rest ih =>
    simp only [clearVals, List.map_cons, joinVals, List.flatten_cons] at ih ⊢
    simpa using ih

/-- A table whose entries are all empty joins to the empty list. -/
theorem joinVals_of_allEmpty {α : Type} (m : List (Nat × List α))
    (h : ∀ e ∈ m, e.2 = []) : joinVals m = ([] : List α) := by
  induction m with
  | nil => rfl
  | cons e rest ih =>
    have ihh := ih (fun x hx => h x (by simp [hx]))
    simp only [joinVals, List.map_cons, List.flatten_cons] at ihh ⊢
    rw [h e (by simp), ihh]
    rfl

/-- Effect of one keyed append on lookup: the value under `q` grows by `vs`
exactly when `q` is the appended key. -/
theorem lookupD_appendEntry {α : Type} (m : List (Nat × List α)) (k : Nat)
    (vs : List α) (q : Nat) :
    lookupD (appendEntry m k vs) q = lookupD m q ++ (if q = k then vs else []) := by
  induction m with
  | nil =>
    by_cases h : k = q
    · subst h; simp [appendEntry, lookupD]
    · simp [appendEntry, lookupD, h, Ne.symm h]
  | cons e rest ih =>
    by_cases h1 : e.1 = k
    · by_cases h2 : e.1 = q
      · have hqk : q = k := by rw [← h2, h1]
        simp [appendEntry, lookupD, h1, h2, hqk]
      · have hqk : ¬ q = k := by rw [← h1]; exact fun hh => h2 hh.symm
        have hkq : ¬ k = q := fun hh => h2 (h1.trans hh)
        simp [appendEntry, lookupD, h1, h2, hqk, hkq]
    · by_cases h2 : e.1 = q
      · have hqk : ¬ q = k := fun hh => h1 (h2.trans hh)
        simp [appendEntry, lookupD, h1, h2, hqk]
      · simp [appendEntry, lookupD, h1, h2, ih]

/-- Effect of a batch of keyed appends on lookup: the value under `q` grows
by the concatenation of the batch's values for `q`. -/
theorem lookupD_appendAll {α : Type} (xs m : List (Nat × List α)) (q : Nat) :
    lookupD (appendAll m xs) q = lookupD m q ++ gatherKey xs q := by
  induction xs generalizing m with
  | nil => simp [appendAll, gatherKey]
  | cons x rest ih =>
    have hfold : appendAll m (x :: rest) = appendAll (appendEntry m x.1 x.2) rest := rfl
    rw [hfold, ih, lookupD_appendEntry]
    simp only [gatherKey]
    rw [List.append_assoc]

/-- Membership in the joined values after one keyed append. -/
theorem mem_joinVals_appendEntry {α : Type} (m : List (Nat × List α)) (k : Nat)
    (vs : List α) (r : α) :
    r ∈ joinVals (appendEntry m k vs) ↔ r ∈ joinVals m ∨ r ∈ vs := by
  induction m with
  | nil => simp [appendEntry, joinVals]
  | cons e rest ih =>
    by_cases h : e.1 = k
    · simp only [appendEntry, if_pos h, joinVals, List.map_cons, List.flatten_cons,
        List.mem_append] at ih ⊢
      tauto
    · simp only [appendEntry, if_neg h, joinVals, List.map_cons, List.flatten_cons,
        List.mem_append] at ih ⊢
      tauto

/-- Membership in the joined values after a batch of keyed appends. -/
theorem mem_joinVals_appendAll {α : Type} (xs m : List (Nat × List α)) (r : α) :
    r ∈ joinVals (appendAll m xs) ↔ r ∈ joinVals m ∨ r ∈ joinVals xs := by
  induction xs generalizing m with
  | nil => simp [appendAll, joinVals]
  | cons x rest ih =>
    have hfold : appendAll m (x :: rest) = appendAll (appendEntry m x.1 x.2) rest := rfl
    rw [hfold]
    simp only [joinVals, List.map_cons, List.flatten_cons, List.mem_append] at ih ⊢
    rw [ih]
    have := mem_joinVals_appendEntry m x.1 x.2 r
    simp only [joinVals] at this
    tauto

/-! ## Observations on `clear_matches` -/

/-- The shape of the context after `clear_matches` when the clearing branch
is taken. -/
theorem clearMatches_zeroing_eq (nR nP base : Nat) (ctx : ScanContext)
    (hz : clearPerformsZeroing ctx = true) :
    clearMatches nR nP base ctx =
      { ctx with
        unconfirmedMatches := clearVals ctx.unconfirmedMatches
        patternMatches := clearVals ctx.patternMatches
        rulesMatching := []
        mem := zeroRange ctx.mem base (base + (nR / 8 + 1) + (nP / 8 + 1)) } := by
  simp only [clearMatches]
  rw [if_pos (show clearPerformsZeroing
    { ctx with unconfirmedMatches := clearVals ctx.unconfirmedMatches } = true from hz)]

/-- The shape of the context after `clear_matches` when the clearing branch
is skipped. -/
theorem clearMatches_skip_eq (nR nP base : Nat) (ctx : ScanContext)
    (hs : clearPerformsZeroing ctx = false) :
    clearMatches nR nP base ctx =
      { ctx with unconfirmedMatches := clearVals ctx.unconfirmedMatches } := by
  have hc : clearPerformsZeroing
      { ctx with unconfirmedMatches := clearVals ctx.unconfirmedMatches } = false := hs
  simp only [clearMatches]
  rw [if_neg (by simp [hc])]

/-- Fields of the context after `clear_matches`: the matching-rule list is
always empty afterwards, the pattern table always equals its cleared form,
and the fields `clear_matches` does not touch are preserved. -/
theorem clearMatches_obs (nR nP b : Nat) (ctx : ScanContext) :
    (clearMatches nR nP b ctx).rulesMatching = [] ∧
    (clearMatches nR nP b ctx).patternMatches = clearVals ctx.patternMatches ∧
    (clearMatches nR nP b ctx).globalRulesMatching = ctx.globalRulesMatching ∧
    (clearMatches nR nP b ctx).rootStruct = ctx.rootStruct ∧
    (clearMatches nR nP b ctx).moduleOutputs = ctx.moduleOutputs ∧
    (clearMatches nR nP b ctx).stringPoolSize = ctx.stringPoolSize := by
  simp only [clearMatches]
  split
  · exact ⟨rfl, rfl, rfl, rfl, rfl, rfl⟩
  · next h =>
    have h2 : ctx.patternMatches.isEmpty = true ∧ ctx.rulesMatching.isEmpty = true := by
      simpa [clearPerformsZeroing] using h
    have hp : ctx.patternMatches = [] := List.isEmpty_iff.mp h2.1
    have hr : ctx.rulesMatching = [] := List.isEmpty_iff.mp h2.2
    exact ⟨hr, by rw [hp]; rfl, rfl, rfl, rfl, rfl⟩

/-! ## C2: the reset step of `scan` -/

/-- C2 counterexample: a reachable context in which every per-pattern match
vector is empty (the single entry of the table holds the empty vector), the
matching-rule list is empty and the bitmaps are zero, yet the branch
condition of `clear_matches` is true, so the explicit zeroing step is
performed rather than skipped — the code skips only when the pattern table
has no entries at all. -/
theorem c2_clear_counterexample :
    ctxEmptyVec.patternMatches = [(0, ([] : List Match))] ∧
    ctxEmptyVec.rulesMatching = [] ∧
    ctxEmptyVec.mem 0 = 0 ∧
    clearPerformsZeroing ctxEmptyVec = true := by
  exact ⟨rfl, rfl, rfl, by decide⟩

/-- C2 (amended): given the bitmap/list agreement invariant, the zeroing is
skipped exactly when the pattern-match table has no entries (not merely empty
vectors) and the matching-rule list is empty — in which case both bitmaps are
indeed zero and linear memory is untouched; otherwise `scan` clears every
per-pattern match vector (keys retained), clears `rules_matching` and zeroes
both bitmaps. -/
theorem c2_clear_matches (nR nP base : Nat) (ctx : ScanContext)
    (hwf : wfBitmaps nR nP base ctx) :
    (clearPerformsZeroing ctx = false ↔
      ctx.patternMatches = [] ∧ ctx.rulesMatching = []) ∧
    (clearPerformsZeroing ctx = false →
      (clearMatches nR nP base ctx).mem = ctx.mem ∧
      (∀ r, r < nR → ruleBit base ctx.mem r = false) ∧
      (∀ p, p < nP → patBit base nR ctx.mem p = false)) ∧
    (clearPerformsZeroing ctx = true →
      (clearMatches nR nP base ctx).patternMatches = clearVals ctx.patternMatches ∧
      (clearMatches nR nP base ctx).rulesMatching = [] ∧
      (∀ i, base ≤ i → i < base + (nR / 8 + 1) + (nP / 8 + 1) →
        (clearMatches nR nP base ctx).mem i = 0)) := by
  have hcond : clearPerformsZeroing
      { ctx with unconfirmedMatches := clearVals ctx.unconfirmedMatches } =
      clearPerformsZeroing ctx := rfl
  refine ⟨?_, ?_, ?_⟩
  · simp [clearPerformsZeroing, List.isEmpty_iff]
  · intro hskip
    have hemp : ctx.patternMatches = [] ∧ ctx.rulesMatching = [] := by
      simpa [clearPerformsZeroing, List.isEmpty_iff] using hskip
    refine ⟨?_, ?_, ?_⟩
    · rw [clearMatches_skip_eq nR nP base ctx hskip]
    · intro r hr
      cases hb : ruleBit base ctx.mem r with
      | false => rfl
      | true =>
        have := hwf.1 r hr hb
        rw [hemp.2] at this
        simp at this
    · intro p hp
      cases hb : patBit base nR ctx.mem p with
      | false => rfl
      | true =>
        have := hwf.2 p hp hb
        rw [hemp.1] at this
        simp [lookupD] at this
  · intro hz
    have hceq := clearMatches_zeroing_eq nR nP base ctx hz
    refine ⟨by rw [hceq], by rw [hceq], ?_⟩
    intro i hlo hhi
    rw [hceq]
    show zeroRange ctx.mem base (base + (nR / 8 + 1) + (nP / 8 + 1)) i = 0
    simp only [zeroRange]
    rw [if_pos ⟨hlo, hhi⟩]

/-- C2 witness: the amended statement evaluated on the counterexample
context, which satisfies the agreement invariant. -/
theorem c2_clear_matches_witness :
    clearPerformsZeroing ctxEmptyVec = true ∧
    (clearMatches 1 1 0 ctxEmptyVec).patternMatches = clearVals ctxEmptyVec.patternMatches ∧
    (clearMatches 1 1 0 ctxEmptyVec).rulesMatching = [] ∧
    (clearMatches 1 1 0 ctxEmptyVec).mem 0 = 0 := by
  have hwf : wfBitmaps 1 1 0 ctxEmptyVec := by
    constructor
    · intro r hr hb
      simp [ruleBit, byteBit, ctxEmptyVec, ctxFix] at hb
    · intro p hp hb
      simp [patBit, byteBit, ctxEmptyVec, ctxFix] at hb
  have t := c2_clear_matches 1 1 0 ctxEmptyVec hwf
  have hz : clearPerformsZeroing ctxEmptyVec = true := by decide
  exact ⟨hz, (t.2.2 hz).1, (t.2.2 hz).2.1, (t.2.2 hz).2.2 0 (by decide) (by decide)⟩

/-! ## C1: base offset of the matching-patterns bitmap -/

/-- C1 counterexample: with one rule (and taking 0 for the constant
`MATCHING_RULES_BITMAP_BASE`), `Scanner::new` computes base offset
`B_RULES + 1`, while the claimed formula `B_RULES + ceil(num_rules/8) + 1`
gives `B_RULES + 2`; the code uses floor division, not a ceiling. -/
theorem c1_base_counterexample :
    matchingPatternsBitmapBase 0 1 = 1 ∧ specCeilPatternsBitmapBase 0 1 = 2 ∧
    matchingPatternsBitmapBase 0 1 ≠ specCeilPatternsBitmapBase 0 1 := by
  refine ⟨by decide, by decide, by decide⟩

/-- C1 (amended): the base offset of the matching-patterns bitmap computed at
`Scanner::new` equals `B_RULES + floor(num_rules/8) + 1` (integer division;
this coincides with the claimed `B_RULES + ceil(num_rules/8) + 1` exactly
when `num_rules` is a multiple of 8), and it is exposed to the VM as an
immutable i32 global with that value. -/
theorem c1_matching_patterns_bitmap_base (bRules numRules : Nat)
    (h : bRules + numRules / 8 + 1 < 2 ^ 31) :
    matchingPatternsBitmapBase bRules numRules = bRules + numRules / 8 + 1 ∧
    (mkMatchingPatternsBitmapBaseGlobal bRules numRules).isConst = true ∧
    (mkMatchingPatternsBitmapBaseGlobal bRules numRules).value =
      ((bRules + numRules / 8 + 1 : Nat) : Int) ∧
    (8 ∣ numRules →
      matchingPatternsBitmapBase bRules numRules =
        specCeilPatternsBitmapBase bRules numRules) := by
  have h32 : bRules + numRules / 8 + 1 < 2 ^ 32 := lt_trans h (by norm_num)
  have hbase : matchingPatternsBitmapBase bRules numRules = bRules + numRules / 8 + 1 := by
    simp only [matchingPatternsBitmapBase]
    exact Nat.mod_eq_of_lt h32
  refine ⟨hbase, rfl, ?_, ?_⟩
  · simp only [mkMatchingPatternsBitmapBaseGlobal, toI32, hbase, Nat.mod_eq_of_lt h32]
    rw [if_pos h]
  · rintro ⟨k, rfl⟩
    simp only [hbase, specCeilPatternsBitmapBase]
    omega

/-- C1 witness: the amended statement evaluated at `B_RULES = 0`,
`num_rules = 8`. -/
theorem c1_matching_patterns_bitmap_base_witness :
    0 + 8 / 8 + 1 < 2 ^ 31 ∧
    matchingPatternsBitmapBase 0 8 = 2 ∧
    (mkMatchingPatternsBitmapBaseGlobal 0 8).value = 2 ∧
    matchingPatternsBitmapBase 0 8 = specCeilPatternsBitmapBase 0 8 := by
  have t := c1_matching_patterns_bitmap_base 0 8 (by norm_num)
  exact ⟨by norm_num, t.1, t.2.2.1, t.2.2.2 ⟨1, by norm_num⟩⟩

/-! ## C5: `Scanner::set_global` -/

/-- C5: `set_global` returns the undeclared-variable error exactly when the
name is absent from the root structure; it returns a type-mismatch error
(reporting the expected and the actual type, in this order) exactly when the
field exists and the new value's type differs, leaving the root structure
unchanged; and when the field exists with a matching type it succeeds and
overwrites the field. -/
theorem c5_set_global (root : RootStruct) (ident : String) (v : TypeValue) :
    ((setGlobal root ident v).1 = some (.undeclared ident) ↔ root ident = none) ∧
    ((∃ e a, (setGlobal root ident v).1 = some (.invalidType ident e a)) ↔
      ∃ tv, root ident = some tv ∧ v.ty ≠ tv.ty) ∧
    (∀ tv, root ident = some tv → v.ty ≠ tv.ty →
      setGlobal root ident v =
        (some (.invalidType ident tv.ty.typeName v.ty.typeName), root)) ∧
    (∀ tv, root ident = some tv → v.ty = tv.ty →
      (setGlobal root ident v).1 = none ∧
      (setGlobal root ident v).2 = addField root ident v ∧
      (setGlobal root ident v).2 ident = some v) := by
  cases hr : root ident with
  | none =>
    refine ⟨by simp [setGlobal, hr], ?_, ?_, ?_⟩
    · simp [setGlobal, hr]
    · intro tv htv; exact absurd htv (by simp)
    · intro tv htv; exact absurd htv (by simp)
  | some tv =>
    by_cases hty : v.ty = tv.ty
    · have he : eqType v tv = true := by simp [eqType, hty]
      refine ⟨by simp [setGlobal, hr, he], ?_, ?_, ?_⟩
      · constructor
        · rintro ⟨e, a, hcontra⟩
          simp [setGlobal, hr, he] at hcontra
        · rintro ⟨tv2, htv2, hne⟩
          cases htv2
          exact absurd hty hne
      · intro tv2 htv2 hne
        cases htv2
        exact absurd hty hne
      · intro tv2 htv2 _
        refine ⟨by simp [setGlobal, hr, he], by simp [setGlobal, hr, he], ?_⟩
        simp [setGlobal, hr, he, addField]
    · have he : eqType v tv = false := by simp [eqType, hty]
      refine ⟨?_, ?_, ?_, ?_⟩
      · simp [setGlobal, hr, he]
      · constructor
        · intro _; exact ⟨tv, rfl, hty⟩
        · intro _; exact ⟨tv.ty.typeName, v.ty.typeName, by simp [setGlobal, hr, he]⟩
      · intro tv2 htv2 _
        cases htv2
        simp [setGlobal, hr, he]
      · intro tv2 htv2 heq
        cases htv2
        exact absurd heq hty

/-- C5 witness: the three behaviours of `set_global` on a concrete root
structure with one integer global `x`. -/
theorem c5_set_global_witness :
    (setGlobal rootFix "y" { ty := Ty.integer, payload := 1 }).1 =
      some (.undeclared "y") ∧
    setGlobal rootFix "x" { ty := Ty.boolean, payload := 0 } =
      (some (.invalidType "x" "integer" "boolean"), rootFix) ∧
    (setGlobal rootFix "x" { ty := Ty.integer, payload := 7 }).1 = none ∧
    (setGlobal rootFix "x" { ty := Ty.integer, payload := 7 }).2 "x" =
      some { ty := Ty.integer, payload := 7 } := by
  refine ⟨(c5_set_global rootFix "y" { ty := Ty.integer, payload := 1 }).1.mpr rfl,
    (c5_set_global rootFix "x" { ty := Ty.boolean, payload := 0 }).2.2.1
      { ty := Ty.integer, payload := 5 } rfl (by decide), ?_, ?_⟩
  · exact ((c5_set_global rootFix "x" { ty := Ty.integer, payload := 7 }).2.2.2
      { ty := Ty.integer, payload := 5 } rfl rfl).1
  · exact ((c5_set_global rootFix "x" { ty := Ty.integer, payload := 7 }).2.2.2
      { ty := Ty.integer, payload := 5 } rfl rfl).2.2

/-! ## C6 and C10: `Scanner::scan_file` -/

/-- C6: `scan_file` reports an open failure with the path and OS error when
the open fails; below the 500,000,000-byte threshold it reads the whole file
into a buffer of capacity exactly the metadata size and scans that buffer;
at or above the threshold it memory-maps the file; a map failure is reported
with the path and OS error; and a successful selection is handed to `scan`. -/
theorem c6_scan_file_strategy (path : String) (f : FileInput) :
    (∀ e, f.openErr = some e → scanFile path f = .error (.openError path e)) ∧
    (f.openErr = none → f.metaSize.getD 0 < fileSizeThreshold → f.readErr = none →
      scanFile path f =
        .ok { data := f.content, reservedCapacity := some (f.metaSize.getD 0)
              memoryMapped := false }) ∧
    (f.openErr = none → fileSizeThreshold ≤ f.metaSize.getD 0 → f.mapErr = none →
      scanFile path f =
        .ok { data := f.content, reservedCapacity := none, memoryMapped := true }) ∧
    (f.openErr = none → fileSizeThreshold ≤ f.metaSize.getD 0 →
      ∀ e, f.mapErr = some e → scanFile path f = .error (.mapError path e)) ∧
    (∀ b vmMain registry imports nR nP base ctx, scanFile path f = .ok b →
      scanFileRun vmMain registry imports nR nP base ctx path f =
        .ok (scan vmMain registry imports nR nP base ctx b.data)) := by
  refine ⟨?_, ?_, ?_, ?_, ?_⟩
  · intro e he; simp [scanFile, he]
  · intro ho hs hr
    simp [scanFile, ho, hr, if_pos hs]
  · intro ho hs hm
    simp [scanFile, ho, hm, if_neg (not_lt.mpr hs)]
  · intro ho hs e hm
    simp [scanFile, ho, hm, if_neg (not_lt.mpr hs)]
  · intro b vmMain registry imports nR nP base ctx hb
    simp [scanFileRun, hb, Except.map]

/-- C6 witness: a small file is read into a buffer of capacity 2 and a large
file is memory-mapped. -/
theorem c6_scan_file_strategy_witness :
    scanFile "a" fileSmall =
      .ok { data := [1, 2], reservedCapacity := some 2, memoryMapped := false } ∧
    scanFile "b" fileLarge =
      .ok { data := [], reservedCapacity := none, memoryMapped := true } := by
  exact ⟨(c6_scan_file_strategy "a" fileSmall).2.1 rfl (by decide) rfl,
    (c6_scan_file_strategy "b" fileLarge).2.2.1 rfl (by decide) rfl⟩

/-- C10: a buffered read failure on the small-file path is reported as an
open error carrying the path and the OS error, and a map error can only arise
when the open succeeded and the metadata size was at or above the threshold. -/
theorem c10_scan_file_read_error (path : String) (f : FileInput) :
    (∀ e, f.openErr = none → f.metaSize.getD 0 < fileSizeThreshold →
      f.readErr = some e → scanFile path f = .error (.openError path e)) ∧
    (∀ e, scanFile path f = .error (.mapError path e) →
      f.openErr = none ∧ fileSizeThreshold ≤ f.metaSize.getD 0 ∧ f.mapErr = some e) := by
  constructor
  · intro e ho hs hr
    simp [scanFile, ho, hr, if_pos hs]
  · intro e hmap
    cases ho : f.openErr with
    | some e2 => simp [scanFile, ho] at hmap
    | none =>
      by_cases hs : f.metaSize.getD 0 < fileSizeThreshold
      · cases hr : f.readErr with
        | some e2 => simp [scanFile, ho, hr, if_pos hs] at hmap
        | none => simp [scanFile, ho, hr, if_pos hs] at hmap
      · cases hm : f.mapErr with
        | some e2 =>
          simp [scanFile, ho, hm, if_neg hs] at hmap
          exact ⟨rfl, not_lt.mp hs, by rw [hmap]⟩
        | none => simp [scanFile, ho, hm, if_neg hs] at hmap

/-- C10 witness: a concrete read failure yields an open error, and a concrete
map error implies the large-file path was taken. -/
theorem c10_scan_file_read_error_witness :
    scanFile "p" fileReadErr = .error (.openError "p" 7) ∧
    fileMapErr.openErr = none ∧ fileSizeThreshold ≤ fileMapErr.metaSize.getD 0 ∧
    fileMapErr.mapErr = some 9 := by
  exact ⟨(c10_scan_file_read_error "p" fileReadErr).1 7 rfl (by decide) rfl,
    (c10_scan_file_read_error "p" fileMapErr).2 9 rfl⟩

/-! ## The module driver -/

/-- The module driver panics exactly when some imported module is absent from
the registry or lacks a main function. -/
theorem moduleDriver_none_iff (registry : List (String × ModuleDef)) (data : List Nat) :
    ∀ (imports : List String) (root : RootStruct) (outs : ModuleOutputs),
      moduleDriver registry data imports root outs = none ↔
        ∃ name ∈ imports, lookupMod registry name = none ∨
          ∃ md, lookupMod registry name = some md ∧ md.mainFn = none := by
  intro imports
  induction imports with
  | nil => intro root outs; simp [moduleDriver]
  | cons name rest ih =>
    intro root outs
    cases hl : lookupMod registry name with
    | none =>
      constructor
      · intro _
        exact ⟨name, by simp, Or.inl hl⟩
      · intro _
        simp [moduleDriver, hl]
    | some md =>
      cases hm : md.mainFn with
      | none =>
        constructor
        · intro _
          exact ⟨name, by simp, Or.inr ⟨md, hl, hm⟩⟩
        · intro _
          simp [moduleDriver, hl, hm]
      | some f =>
        have hred : moduleDriver registry data (name :: rest) root outs =
            moduleDriver registry data rest
              (addField root name (structOfMsg (f data))) (insertOutput outs (f data)) := by
          simp [moduleDriver, hl, hm]
        rw [hred, ih]
        constructor
        · rintro ⟨n2, hn2, hbad⟩
          exact ⟨n2, by simp [hn2], hbad⟩
        · rintro ⟨n2, hn2, hbad⟩
          rcases List.mem_cons.mp hn2 with heq | hmem
          · subst heq
            rcases hbad with hbad | ⟨md2, hmd2, hmf2⟩
            · rw [hl] at hbad
              exact absurd hbad (by simp)
            · rw [hl] at hmd2
              cases hmd2
              rw [hm] at hmf2
              exact absurd hmf2 (by simp)
          · exact ⟨n2, hmem, hbad⟩

/-- A successful module-driver run applies to the root structure exactly the
write sequence `modWrites`, which does not depend on the incoming root
structure or outputs. -/
theorem moduleDriver_root_eq (registry : List (String × ModuleDef)) (data : List Nat) :
    ∀ (imports : List String) (root : RootStruct) (outs : ModuleOutputs)
      (res : RootStruct × ModuleOutputs),
      moduleDriver registry data imports root outs = some res →
      ∃ w, modWrites registry data imports = some w ∧ res.1 = applyFields root w := by
  intro imports
  induction imports with
  | nil =>
    intro root outs res h
    simp only [moduleDriver, Option.some.injEq] at h
    exact ⟨[], rfl, by rw [← h]; rfl⟩
  | cons name rest ih =>
    intro root outs res h
    cases hl : lookupMod registry name with
    | none => simp [moduleDriver, hl] at h
    | some md =>
      cases hm : md.mainFn with
      | none => simp [moduleDriver, hl, hm] at h
      | some f =>
        have hred : moduleDriver registry data (name :: rest) root outs =
            moduleDriver registry data rest
              (addField root name (structOfMsg (f data))) (insertOutput outs (f data)) := by
          simp [moduleDriver, hl, hm]
        rw [hred] at h
        obtain ⟨w, hw, hres⟩ := ih _ _ res h
        refine ⟨(name, structOfMsg (f data)) :: w, ?_, ?_⟩
        · simp [modWrites, hl, hm, hw]
        · rw [hres]; rfl

/-- Pointwise description of `applyFields`: the last write wins, absent keys
fall through to the original structure. -/
theorem applyFields_apply (w : List (String × TypeValue)) :
    ∀ (root : RootStruct) (m : String),
      applyFields root w m =
        match lastWrite w m with
        | some v => some v
        | none => root m := by
  induction w with
  | nil => intro root m; rfl
  | cons e rest ih =>
    obtain ⟨n, v⟩ := e
    intro root m
    rw [show applyFields root ((n, v) :: rest) = applyFields (addField root n v) rest from rfl,
      ih]
    cases hlw : lastWrite rest m with
    | some v2 => simp [lastWrite, hlw]
    | none =>
      simp only [lastWrite, hlw, addField]
      by_cases hme : m = n <;> simp [hme]

/-- Replaying the same write sequence a second time changes nothing. -/
theorem applyFields_idem (root : RootStruct) (w : List (String × TypeValue)) :
    applyFields (applyFields root w) w = applyFields root w := by
  funext m
  have h1 := applyFields_apply w (applyFields root w) m
  have h2 := applyFields_apply w root m
  rw [h1]
  cases hlw : lastWrite w m with
  | some v => simp [h2, hlw]
  | none => simp [h2, hlw]

/-! ## Shape of a successful scan -/

/-- A successful `scanCore` always ends in the input-detachment step. -/
theorem scanCore_some_shape (vmMain : List Nat → RootStruct → VMOutput)
    (registry : List (String × ModuleDef)) (imports : List String)
    (nR nP base : Nat) (ctx : ScanContext) (data : List Nat) (mid : ScanContext)
    (h : scanCore vmMain registry imports nR nP base ctx data = some mid) :
    ∃ pre, mid = detachInputs pre := by
  simp only [scanCore] at h
  split at h
  · exact absurd h (by simp)
  · exact ⟨_, (Option.some.inj h).symm⟩

/-! ## C3: inputs are detached before `scan` returns -/

/-- C3: whenever `scan` returns, the context's scanned-data pointer is null
(`none`), the scanned-data length is 0 and `current_struct` is cleared. -/
theorem c3_scan_detaches (vmMain : List Nat → RootStruct → VMOutput)
    (registry : List (String × ModuleDef)) (imports : List String)
    (nR nP base : Nat) (ctx : ScanContext) (data : List Nat) (c : ScanContext)
    (h : scan vmMain registry imports nR nP base ctx data = some c) :
    c.scannedData = none ∧ c.scannedDataLen = 0 ∧ c.currentStruct = none := by
  unfold scan at h
  cases hc : scanCore vmMain registry imports nR nP base ctx data with
  | none => rw [hc] at h; simp at h
  | some mid =>
    rw [hc] at h
    simp only [Option.map_some'] at h
    obtain ⟨pre, hpre⟩ :=
      scanCore_some_shape vmMain registry imports nR nP base ctx data mid hc
    subst hpre
    have hpc := Option.some.inj h
    rw [← hpc]
    exact ⟨rfl, rfl, rfl⟩

/-- C3 witness: a concrete successful scan, on which the three detachment
facts hold. -/
theorem c3_scan_detaches_witness :
    ∃ c, scan vmFix regFix [] 1 1 0 ctxFix [7] = some c ∧
      c.scannedData = none ∧ c.scannedDataLen = 0 ∧ c.currentStruct = none := by
  have hs : (scan vmFix regFix [] 1 1 0 ctxFix [7]).isSome = true := rfl
  obtain ⟨c, hc⟩ := Option.isSome_iff_exists.mp hs
  have t := c3_scan_detaches vmFix regFix [] 1 1 0 ctxFix [7] c hc
  exact ⟨c, hc, t.1, t.2.1, t.2.2⟩

/-! ## C4: the global-rule drain -/

/-- C4: after `scan` returns, every entry of `global_rules_matching` is
empty, and the rule ids those entries held were appended to `rules_matching`
after the regular matching rules. -/
theorem c4_scan_drains_globals (vmMain : List Nat → RootStruct → VMOutput)
    (registry : List (String × ModuleDef)) (imports : List String)
    (nR nP base : Nat) (ctx : ScanContext) (data : List Nat) (mid : ScanContext)
    (h : scanCore vmMain registry imports nR nP base ctx data = some mid) :
    scan vmMain registry imports nR nP base ctx data = some (postProcess mid) ∧
    (∀ e ∈ (postProcess mid).globalRulesMatching, e.2 = ([] : List Nat)) ∧
    (postProcess mid).rulesMatching =
      mid.rulesMatching ++ joinVals mid.globalRulesMatching := by
  refine ⟨by simp [scan, h], ?_, rfl⟩
  intro e he
  simp only [postProcess, clearVals, List.mem_map] at he
  obtain ⟨x, hx, hxe⟩ := he
  rw [← hxe]

/-- C4 witness: a concrete successful scan core followed by the drain. -/
theorem c4_scan_drains_globals_witness :
    ∃ mid, scanCore vmFix regFix [] 1 1 0 ctxFix [7] = some mid ∧
      (∀ e ∈ (postProcess mid).globalRulesMatching, e.2 = ([] : List Nat)) ∧
      (postProcess mid).rulesMatching =
        mid.rulesMatching ++ joinVals mid.globalRulesMatching := by
  have hs : (scanCore vmFix regFix [] 1 1 0 ctxFix [7]).isSome = true := rfl
  obtain ⟨mid, hm⟩ := Option.isSome_iff_exists.mp hs
  have t := c4_scan_drains_globals vmFix regFix [] 1 1 0 ctxFix [7] mid hm
  exact ⟨mid, hm, t.2.1, t.2.2⟩

/-! ## C9: unresolvable imports abort the scan -/

/-- C9: if some imported module is missing from the registry or lacks a main
function, `scan` panics during the module-driver phase and returns no result;
if every import resolves to a registered module with a main function, these
abort branches are not taken and `scan` returns a result. -/
theorem c9_scan_module_abort (vmMain : List Nat → RootStruct → VMOutput)
    (registry : List (String × ModuleDef)) (imports : List String)
    (nR nP base : Nat) (ctx : ScanContext) (data : List Nat) :
    ((∃ name ∈ imports, lookupMod registry name = none ∨
        ∃ md, lookupMod registry name = some md ∧ md.mainFn = none) →
      scan vmMain registry imports nR nP base ctx data = none) ∧
    ((∀ name ∈ imports, ∃ md, lookupMod registry name = some md ∧ md.mainFn ≠ none) →
      ∃ c, scan vmMain registry imports nR nP base ctx data = some c) := by
  constructor
  · intro hbad
    have hdrv : moduleDriver registry data imports
        ((recyclePool (bindInputs (clearMatches nR nP base ctx) data)).rootStruct)
        ((recyclePool (bindInputs (clearMatches nR nP base ctx) data)).moduleOutputs) = none :=
      (moduleDriver_none_iff registry data imports _ _).mpr hbad
    simp [scan, scanCore, hdrv]
  · intro hgood
    cases hd : moduleDriver registry data imports
        ((recyclePool (bindInputs (clearMatches nR nP base ctx) data)).rootStruct)
        ((recyclePool (bindInputs (clearMatches nR nP base ctx) data)).moduleOutputs) with
    | none =>
      obtain ⟨name, hn, hbad⟩ := (moduleDriver_none_iff registry data imports _ _).mp hd
      obtain ⟨md, hmd, hmf⟩ := hgood name hn
      rcases hbad with h1 | ⟨md2, hmd2, hmf2⟩
      · rw [hmd] at h1
        exact absurd h1 (by simp)
      · rw [hmd] at hmd2
        cases hmd2
        exact absurd hmf2 hmf
    | some res =>
      obtain ⟨root, outs⟩ := res
      refine ⟨postProcess (detachInputs (applyVM
        { recyclePool (bindInputs (clearMatches nR nP base ctx) data) with
          rootStruct := root, moduleOutputs := outs } (vmMain data root))), ?_⟩
      simp [scan, scanCore, hd]

/-- C9 witness: a missing module and a module without a main function each
abort a concrete scan, while a fully resolvable import list lets it return. -/
theorem c9_scan_module_abort_witness :
    scan vmFix [] ["pe"] 1 1 0 ctxFix [7] = none ∧
    scan vmFix regFixNoMain ["m"] 1 1 0 ctxFix [7] = none ∧
    ∃ c, scan vmFix regFix ["m"] 1 1 0 ctxFix [7] = some c := by
  refine ⟨(c9_scan_module_abort vmFix [] ["pe"] 1 1 0 ctxFix [7]).1
      ⟨"pe", by simp, Or.inl rfl⟩,
    (c9_scan_module_abort vmFix regFixNoMain ["m"] 1 1 0 ctxFix [7]).1
      ⟨"m", by simp, Or.inr ⟨{ mainFn := none, rootTypeName := "T" }, rfl, rfl⟩⟩,
    (c9_scan_module_abort vmFix regFix ["m"] 1 1 0 ctxFix [7]).2 ?_⟩
  intro name hn
  simp only [List.mem_singleton] at hn
  subst hn
  exact ⟨{ mainFn := some (fun _ => { fullName := "T", payload := 0 })
           rootTypeName := "T" }, rfl, by simp⟩

/-! ## The non-matching-rules cursor -/

/-- Draining the iterator yields exactly its remaining list. -/
theorem drain_eq_remaining : ∀ (rem : List Nat) (len : Nat),
    NonMatchingRulesIter.drain { remaining := rem, len := len } = rem := by
  intro rem
  induction rem with
  | nil =>
    intro len
    rw [NonMatchingRulesIter.drain]
    simp [NonMatchingRulesIter.next]
  | cons r rest ih =>
    intro len
    rw [NonMatchingRulesIter.drain]
    simp [NonMatchingRulesIter.next, ih]

/-- One `next` call decrements the reported length, saturating at zero. -/
theorem next_len (it : NonMatchingRulesIter) : (it.next).2.len = it.len - 1 := by
  cases hr : it.remaining <;> simp [NonMatchingRulesIter.next, hr]

/-- `k` calls to `next` decrement the reported length by `k`, saturating at
zero. -/
theorem stepN_len (k : Nat) : ∀ it : NonMatchingRulesIter,
    (it.stepN k).len = it.len - k := by
  induction k with
  | zero => intro it; rfl
  | succ k ih =>
    intro it
    rw [show it.stepN (k + 1) = (it.next).2.stepN k from rfl, ih, next_len]
    omega

/-- Membership in the zero-bit index list. -/
theorem mem_bitmapZeroIndices (mem : Nat → Nat) (base numRules r : Nat) :
    r ∈ bitmapZeroIndices mem base numRules ↔
      r < numRules ∧ ruleBit base mem r = false := by
  simp only [bitmapZeroIndices, List.mem_filter, List.mem_range, Bool.not_eq_true']

/-- C7: the non-matching-rules cursor yields exactly the rule indices in
`[0, num_rules)` whose bit in the matching-rules bitmap is zero (excluding
the trailing padding bits), its reported length starts at
`num_rules - |rules_matching|`, and consuming elements decrements that length
with saturating subtraction, never going below zero. -/
theorem c7_non_matching_rules (ctx : ScanContext) (numRules base : Nat) :
    (NonMatchingRulesIter.new ctx numRules base).drain =
      bitmapZeroIndices ctx.mem base numRules ∧
    (∀ r, r ∈ (NonMatchingRulesIter.new ctx numRules base).drain ↔
      r < numRules ∧ ruleBit base ctx.mem r = false) ∧
    (NonMatchingRulesIter.new ctx numRules base).len =
      numRules - ctx.rulesMatching.length ∧
    (∀ k, ((NonMatchingRulesIter.new ctx numRules base).stepN k).len =
      (numRules - ctx.rulesMatching.length) - k) := by
  have hd : (NonMatchingRulesIter.new ctx numRules base).drain =
      bitmapZeroIndices ctx.mem base numRules :=
    drain_eq_remaining (bitmapZeroIndices ctx.mem base numRules)
      (numRules - ctx.rulesMatching.length)
  refine ⟨hd, ?_, rfl, ?_⟩
  · intro r
    rw [hd]
    exact mem_bitmapZeroIndices ctx.mem base numRules r
  · intro k
    rw [stepN_len]
    rfl

/-! ## Characterisation of a successful scan core -/

/-- Observable fields of the context produced by a successful `scanCore`:
the module writes were applied to the root structure, the matching-rule list
holds exactly the rule program's regular rules, and the global-rule and
pattern tables are the cleared incoming tables extended by the rule program's
output.  The rule program sees the updated root structure. -/
theorem scanCore_obs (vmMain : List Nat → RootStruct → VMOutput)
    (registry : List (String × ModuleDef)) (imports : List String)
    (nR nP base : Nat) (ctx : ScanContext) (data : List Nat) (mid : ScanContext)
    (h : scanCore vmMain registry imports nR nP base ctx data = some mid) :
    ∃ w, modWrites registry data imports = some w ∧
      mid.rootStruct = applyFields ctx.rootStruct w ∧
      mid.rulesMatching = (vmMain data (applyFields ctx.rootStruct w)).regular ∧
      mid.globalRulesMatching =
        appendAll ctx.globalRulesMatching
          (vmMain data (applyFields ctx.rootStruct w)).globalGroups ∧
      mid.patternMatches =
        appendAll (clearVals ctx.patternMatches)
          (vmMain data (applyFields ctx.rootStruct w)).patMatches := by
  have hobs := clearMatches_obs nR nP base ctx
  have hcroot : (recyclePool (bindInputs (clearMatches nR nP base ctx) data)).rootStruct =
      ctx.rootStruct := hobs.2.2.2.1
  have hcrules : (recyclePool (bindInputs (clearMatches nR nP base ctx) data)).rulesMatching =
      [] := hobs.1
  have hcglob :
      (recyclePool (bindInputs (clearMatches nR nP base ctx) data)).globalRulesMatching =
      ctx.globalRulesMatching := hobs.2.2.1
  have hcpat : (recyclePool (bindInputs (clearMatches nR nP base ctx) data)).patternMatches =
      clearVals ctx.patternMatches := hobs.2.1
  simp only [scanCore] at h
  split at h
  · exact absurd h (by simp)
  · next root outs heq =>
    have hmid := (Option.some.inj h).symm
    obtain ⟨w, hw, hroot⟩ := moduleDriver_root_eq registry data imports _ _ _ heq
    have hroot2 : root = applyFields ctx.rootStruct w := by
      rw [← hcroot]
      exact hroot
    have e1 : mid.rootStruct = root := by rw [hmid]; rfl
    have e2 : mid.rulesMatching =
        (recyclePool (bindInputs (clearMatches nR nP base ctx) data)).rulesMatching ++
          (vmMain data root).regular := by rw [hmid]; rfl
    have e3 : mid.globalRulesMatching =
        appendAll
          (recyclePool (bindInputs (clearMatches nR nP base ctx) data)).globalRulesMatching
          (vmMain data root).globalGroups := by rw [hmid]; rfl
    have e4 : mid.patternMatches =
        appendAll
          (recyclePool (bindInputs (clearMatches nR nP base ctx) data)).patternMatches
          (vmMain data root).patMatches := by rw [hmid]; rfl
    refine ⟨w, hw, ?_, ?_, ?_, ?_⟩
    · rw [e1]
      exact hroot2
    · rw [e2, hcrules, hroot2]
      simp
    · rw [e3, hcglob, hroot2]
    · rw [e4, hcpat, hroot2]

/-! ## C8: re-scanning the same input -/

/-- C8: two consecutive `scan` calls on the same data, starting from a
context whose global-rule entries are empty (as every reachable inter-scan
context is), produce the same set of matching rules and the same per-pattern
match lists. -/
theorem c8_scan_idempotent (vmMain : List Nat → RootStruct → VMOutput)
    (registry : List (String × ModuleDef)) (imports : List String)
    (nR nP base : Nat) (ctx : ScanContext) (data : List Nat) (c1 c2 : ScanContext)
    (h0 : ∀ e ∈ ctx.globalRulesMatching, e.2 = ([] : List Nat))
    (h1 : scan vmMain registry imports nR nP base ctx data = some c1)
    (h2 : scan vmMain registry imports nR nP base c1 data = some c2) :
    (∀ r, r ∈ c2.rulesMatching ↔ r ∈ c1.rulesMatching) ∧
    (∀ p, patternMatchList c2 p = patternMatchList c1 p) := by
  unfold scan at h1 h2
  cases hs1 : scanCore vmMain registry imports nR nP base ctx data with
  | none => rw [hs1] at h1; simp at h1
  | some mid1 =>
    rw [hs1] at h1
    simp only [Option.map_some'] at h1
    replace h1 := Option.some.inj h1
    cases hs2 : scanCore vmMain registry imports nR nP base c1 data with
    | none => rw [hs2] at h2; simp at h2
    | some mid2 =>
      rw [hs2] at h2
      simp only [Option.map_some'] at h2
      replace h2 := Option.some.inj h2
      obtain ⟨w1, hw1, e1root, e1rules, e1glob, e1pat⟩ :=
        scanCore_obs vmMain registry imports nR nP base ctx data mid1 hs1
      obtain ⟨w2, hw2, e2root, e2rules, e2glob, e2pat⟩ :=
        scanCore_obs vmMain registry imports nR nP base c1 data mid2 hs2
      rw [hw1] at hw2
      injection hw2 with hww
      subst hww
      have hc1root : c1.rootStruct = applyFields ctx.rootStruct w1 := by
        rw [← h1]; exact e1root
      have hc1glob : c1.globalRulesMatching = clearVals mid1.globalRulesMatching := by
        rw [← h1]; rfl
      have hc1pat : c1.patternMatches = mid1.patternMatches := by
        rw [← h1]; rfl
      have hc1rules : c1.rulesMatching =
          mid1.rulesMatching ++ joinVals mid1.globalRulesMatching := by
        rw [← h1]; rfl
      have hc2glob : c2.globalRulesMatching = clearVals mid2.globalRulesMatching := by
        rw [← h2]; rfl
      have hc2pat : c2.patternMatches = mid2.patternMatches := by
        rw [← h2]; rfl
      have hc2rules : c2.rulesMatching =
          mid2.rulesMatching ++ joinVals mid2.globalRulesMatching := by
        rw [← h2]; rfl
      have hroots : applyFields c1.rootStruct w1 = applyFields ctx.rootStruct w1 := by
        rw [hc1root]
        exact applyFields_idem ctx.rootStruct w1
      rw [hroots] at e2rules e2glob e2pat
      have hjc : joinVals ctx.globalRulesMatching = ([] : List Nat) :=
        joinVals_of_allEmpty ctx.globalRulesMatching h0
      have hjm : joinVals (clearVals mid1.globalRulesMatching) = ([] : List Nat) :=
        joinVals_clearVals mid1.globalRulesMatching
      constructor
      · intro r
        rw [hc2rules, hc1rules, e2rules, e2glob, e1rules, e1glob, hc1glob]
        simp only [List.mem_append, mem_joinVals_appendAll, hjc, hjm,
          List.not_mem_nil, false_or]
      · intro p
        simp only [patternMatchList, hc2pat, hc1pat, e2pat, e1pat]
        rw [lookupD_appendAll, lookupD_appendAll, lookupD_clearVals, lookupD_clearVals]

/-- C8 witness: two concrete consecutive scans of the same input agree on the
matching-rule set and on every per-pattern match list. -/
theorem c8_scan_idempotent_witness :
    ∃ c1 c2, scan vmFix regFix [] 1 1 0 ctxFix [7] = some c1 ∧
      scan vmFix regFix [] 1 1 0 c1 [7] = some c2 ∧
      (∀ r, r ∈ c2.rulesMatching ↔ r ∈ c1.rulesMatching) ∧
      (∀ p, patternMatchList c2 p = patternMatchList c1 p) := by
  have hs1 : (scan vmFix regFix [] 1 1 0 ctxFix [7]).isSome = true := rfl
  obtain ⟨c1, hc1⟩ := Option.isSome_iff_exists.mp hs1
  have hsb : ((scan vmFix regFix [] 1 1 0 ctxFix [7]).bind
      (fun c => scan vmFix regFix [] 1 1 0 c [7])).isSome = true := rfl
  rw [hc1] at hsb
  have hsb2 : (scan vmFix regFix [] 1 1 0 c1 [7]).isSome = true := hsb
  obtain ⟨c2, hc2⟩ := Option.isSome_iff_exists.mp hsb2
  have h0 : ∀ e ∈ ctxFix.globalRulesMatching, e.2 = ([] : List Nat) := by
    intro e he
    simp [ctxFix] at he
  have t := c8_scan_idempotent vmFix regFix [] 1 1 0 ctxFix [7] c1 c2 h0 hc1 hc2
  exact ⟨c1, c2, hc1, hc2, t.1, t.2⟩

end YaraX
